import Mathlib

/-!
Verification development for the youth-employment dashboard (`app.py`).

Python strings are modelled as lists of Unicode code points (`PyStr`),
tabular data as lists of structures, and rational arithmetic (`ℚ`) stands
in for the float arithmetic of the aggregation code (all quantities
involved are exact: sums, counts, quotients).
-/

/-- A Python string, as its sequence of Unicode code points. -/
abbrev PyStr := List Nat

/-- Code-point list of a Lean string literal (used to write concrete
Python strings readably). -/
def pystr (s : String) : PyStr := s.toList.map Char.toNat

/-- Python `str.lower` on a single code point, restricted to ASCII
(the dashboard only lowercases strings that were already stripped to
ASCII). -/
def pyLowerChar (c : Nat) : Nat := if 65 ≤ c ∧ c ≤ 90 then c + 32 else c

/-- Python `str.upper` on a single ASCII code point. -/
def pyUpperChar (c : Nat) : Nat := if 97 ≤ c ∧ c ≤ 122 then c - 32 else c

/-- Python `str.upper` (ASCII part), as used on the department keys. -/
def pyUpper (s : PyStr) : PyStr := s.map pyUpperChar

/-- Python `str.capitalize` (ASCII part): first code point uppercased,
the rest lowercased; used for the `Departamento` column of the
comparison table (`dep.capitalize()`). -/
def pyCapitalize : PyStr → PyStr
  | [] => []
  | c :: cs => pyUpperChar c :: cs.map pyLowerChar

/-- NFKD decomposition of one code point (`str.normalize('NFKD')`),
tabulated for the accented Latin letters occurring in Colombian
department and occupation names; every other code point is its own
(trivial) decomposition. 769, 771 and 776 are the combining acute,
tilde and diaeresis marks. -/
def nfkd (c : Nat) : List Nat :=
  if c < 128 then [c]             -- NFKD is the identity on ASCII
  else if c = 193 then [65, 769]  -- Á
  else if c = 201 then [69, 769]  -- É
  else if c = 205 then [73, 769]  -- Í
  else if c = 211 then [79, 769]  -- Ó
  else if c = 218 then [85, 769]  -- Ú
  else if c = 209 then [78, 771]  -- Ñ
  else if c = 220 then [85, 776]  -- Ü
  else if c = 225 then [97, 769]  -- á
  else if c = 233 then [101, 769] -- é
  else if c = 237 then [105, 769] -- í
  else if c = 243 then [111, 769] -- ó
  else if c = 250 then [117, 769] -- ú
  else if c = 241 then [110, 771] -- ñ
  else if c = 252 then [117, 776] -- ü
  else [c]

/-- The load-time cleaning applied to `Departamento` and `Ocupación`
(app.py lines 58-59): NFKD-decompose, drop the non-ASCII code points
(`encode('ascii', errors='ignore')`), lowercase. -/
def normBase (s : PyStr) : PyStr :=
  ((s.flatMap nfkd).filter (fun c => decide (c < 128))).map pyLowerChar

/-- The manual alias table `correcciones` (app.py lines 82-86), applied
to the normalized department key by `df['departamento'].replace(...)`. -/
def correcciones (s : PyStr) : PyStr :=
  if s = pystr "bogota d.c." then pystr "bogota, d.c."
  else if s = pystr "valle del cauca" then pystr "valle"
  else if s = pystr "cordoba" then pystr "cordoba"
  else s

/-- The full department-name normalization pipeline: clean, then apply
the alias table. -/
def normalizeKey (s : PyStr) : PyStr := correcciones (normBase s)

theorem nfkd_ascii (c : Nat) (h : c < 128) : nfkd c = [c] := by
  unfold nfkd
  rw [if_pos h]

theorem pyLowerChar_lt_128 (c : Nat) (h : c < 128) : pyLowerChar c < 128 := by
  unfold pyLowerChar; split_ifs <;> omega

theorem pyLowerChar_not_upper (c : Nat) : ¬(65 ≤ pyLowerChar c ∧ pyLowerChar c ≤ 90) := by
  unfold pyLowerChar; split_ifs <;> omega

theorem pyLowerChar_fixed (c : Nat) (h : ¬(65 ≤ c ∧ c ≤ 90)) : pyLowerChar c = c := by
  unfold pyLowerChar; rw [if_neg h]

theorem normBase_mem (s : PyStr) :
    ∀ c ∈ normBase s, c < 128 ∧ ¬(65 ≤ c ∧ c ≤ 90) := by
  intro c hc
  unfold normBase at hc
  rcases List.mem_map.mp hc with ⟨d, hd, rfl⟩
  have hd128 : d < 128 := by
    have := List.of_mem_filter hd
    simpa using this
  exact ⟨pyLowerChar_lt_128 d hd128, pyLowerChar_not_upper d⟩

theorem normBase_fixed (s : PyStr) (h : ∀ c ∈ s, c < 128 ∧ ¬(65 ≤ c ∧ c ≤ 90)) :
    normBase s = s := by
  induction s with
  | nil => rfl
  | cons c cs ih =>
    obtain ⟨h1, h2⟩ := h c (List.mem_cons_self c cs)
    have htail : normBase cs = cs := ih (fun d hd => h d (List.mem_cons_of_mem c hd))
    unfold normBase at htail ⊢
    rw [List.flatMap_cons, nfkd_ascii c h1, List.singleton_append,
        List.filter_cons_of_pos (by simpa using h1), List.map_cons,
        pyLowerChar_fixed c h2, htail]

theorem normBase_idem (s : PyStr) : normBase (normBase s) = normBase s :=
  normBase_fixed (normBase s) (normBase_mem s)

/-- **C2**: the department/occupation name normalization (NFKD
decomposition, ASCII strip, lowercase, then the fixed alias table) is
idempotent: `normalizeKey (normalizeKey x) = normalizeKey x` for every string. -/
theorem normalize_idempotent (s : PyStr) : normalizeKey (normalizeKey s) = normalizeKey s := by
  unfold normalizeKey
  have hb := normBase_idem s
  by_cases h1 : normBase s = pystr "bogota d.c."
  · have e1 : correcciones (normBase s) = pystr "bogota, d.c." := by
      unfold correcciones; rw [if_pos h1]
    rw [e1]; rfl
  · by_cases h2 : normBase s = pystr "valle del cauca"
    · have e2 : correcciones (normBase s) = pystr "valle" := by
        unfold correcciones; rw [if_neg h1, if_pos h2]
      rw [e2]; rfl
    · by_cases h3 : normBase s = pystr "cordoba"
      · have e3 : correcciones (normBase s) = pystr "cordoba" := by
          unfold correcciones; rw [if_neg h1, if_neg h2, if_pos h3]
        rw [e3]; rfl
      · have e4 : correcciones (normBase s) = normBase s := by
          unfold correcciones; rw [if_neg h1, if_neg h2, if_neg h3]
        rw [e4, hb, e4]

/-- One row of the working table `df`: the CSV columns (`ID`,
`Departamento`, `Latitud`, `Longitud`, `Edad`, `Ocupación`, `Ingreso`)
plus the two normalized key columns added at load time. -/
structure Registro where
  ID : Nat
  Departamento : PyStr
  Latitud : ℚ
  Longitud : ℚ
  Edad : ℚ
  Ocupacion : PyStr
  Ingreso : ℚ
  departamento : PyStr
  ocupacion : PyStr
deriving DecidableEq

/-- One row of the CSV file before the normalized columns are added. -/
structure RawRegistro where
  ID : Nat
  Departamento : PyStr
  Latitud : ℚ
  Longitud : ℚ
  Edad : ℚ
  Ocupacion : PyStr
  Ingreso : ℚ

/-- The built-in fallback table created in the `except` branch of the
data load (app.py lines 65-75): three rows for Santander, Cundinamarca
and Bogotá D.C. -/
def fallback_df : List Registro :=
  [⟨1, pystr "Santander", 7.1254, -73.1198, 20, pystr "Estudiante", 868997,
     pystr "santander", pystr "estudiante"⟩,
   ⟨2, pystr "Cundinamarca", 4.6814, -74.1371, 24, pystr "Desempleado", 586245,
     pystr "cundinamarca", pystr "desempleado"⟩,
   ⟨3, pystr "Bogotá D.C.", 4.7110, -74.0721, 25, pystr "Trabajador", 415614,
     pystr "bogota d.c.", pystr "trabajador"⟩]

/-- The dataset loader (app.py lines 55-75).  Its input is the outcome
of `pd.read_csv`: either the parsed rows or an exception message.  On
success it adds the normalized `departamento` and `ocupacion` columns;
on failure it substitutes `fallback_df`. -/
def load_df : Except PyStr (List RawRegistro) → List Registro
  | Except.error _ => fallback_df
  | Except.ok rows => rows.map fun r =>
      ⟨r.ID, r.Departamento, r.Latitud, r.Longitud, r.Edad, r.Ocupacion, r.Ingreso,
        normBase r.Departamento, normBase r.Ocupacion⟩

/-- Mean of a rational column (`Series.mean`): sum divided by count. -/
def mean (l : List ℚ) : ℚ := l.sum / l.length

/-- The per-department subset `dep_data = df[df['departamento'] == dep]`
computed inside the comparison callback. -/
def dep_data (df : List Registro) (dep : PyStr) : List Registro :=
  df.filter fun r => decide (r.departamento = dep)

/-- One row of the comparison table, with the fields of the dict built
in the loop of `update_tabla_comparativa` (app.py lines 630-641). -/
structure FilaComparativa where
  Departamento : PyStr
  EdadPromedio : ℚ
  IngresoPromedio : ℚ
  TotalJovenes : Nat
  pctEstudiantes : ℚ
  pctTrabajadores : ℚ
  pctDesempleados : ℚ
  IngresoEstudiantes : ℚ
  IngresoTrabajadores : ℚ
  IngresoDesempleados : ℚ
deriving DecidableEq

/-- The dict appended for one department by the loop body of
`update_tabla_comparativa`, given its non-empty `dep_data` subset. -/
def mkFila (dep : PyStr) (depData : List Registro) : FilaComparativa :=
  let estudiantes := depData.filter fun r => decide (r.ocupacion = pystr "estudiante")
  let trabajadores := depData.filter fun r => decide (r.ocupacion = pystr "trabajador")
  let desempleados := depData.filter fun r => decide (r.ocupacion = pystr "desempleado")
  ⟨pyCapitalize dep,
   mean (depData.map Registro.Edad),
   mean (depData.map Registro.Ingreso),
   depData.length,
   if 0 < depData.length then (estudiantes.length : ℚ) / depData.length * 100 else 0,
   if 0 < depData.length then (trabajadores.length : ℚ) / depData.length * 100 else 0,
   if 0 < depData.length then (desempleados.length : ℚ) / depData.length * 100 else 0,
   if ¬ estudiantes.isEmpty then mean (estudiantes.map Registro.Ingreso) else 0,
   if ¬ trabajadores.isEmpty then mean (trabajadores.map Registro.Ingreso) else 0,
   if ¬ desempleados.isEmpty then mean (desempleados.map Registro.Ingreso) else 0⟩

/-- The accumulation loop `for dep in departamentos: ...` of
`update_tabla_comparativa`: departments whose subset is empty are
skipped, the rest contribute one row each, in selection order. -/
def resultados (df : List Registro) : List PyStr → List FilaComparativa
  | [] => []
  | dep :: rest =>
    if ¬ (dep_data df dep).isEmpty then mkFila dep (dep_data df dep) :: resultados df rest
    else resultados df rest

/-- What the comparison callback returns: either the prompt paragraph
or the rendered data table. -/
inductive SalidaTabla where
  | mensaje (texto : PyStr)
  | tabla (filas : List FilaComparativa)
deriving DecidableEq

/-- The prompt shown when the selection is empty. -/
def promptMsg : PyStr :=
  pystr "Por favor, seleccione al menos un departamento para comparar."

/-- The comparison callback `update_tabla_comparativa` (app.py lines
614-673).  `departamentos` is `none` when the framework passes `None`;
the guard `if not departamentos or len(df) == 0` covers `None`, the
empty selection, and an empty table. -/
def update_tabla_comparativa (departamentos : Option (List PyStr))
    (df : List Registro) : SalidaTabla :=
  match departamentos with
  | none => SalidaTabla.mensaje promptMsg
  | some deps =>
    if deps.isEmpty || df.isEmpty then SalidaTabla.mensaje promptMsg
    else SalidaTabla.tabla (resultados df deps)

/-- **C3**: whatever the read failure, the loader returns the fixed
built-in fallback table: exactly 3 rows, non-empty, with consistent
normalized key columns and occupation values from the expected
categories. -/
theorem load_df_fallback (e : PyStr) :
    load_df (Except.error e) = fallback_df
  ∧ fallback_df.length = 3
  ∧ fallback_df ≠ []
  ∧ ∀ r ∈ fallback_df,
      r.departamento = normBase r.Departamento
    ∧ r.ocupacion = normBase r.Ocupacion
    ∧ r.ocupacion ∈ [pystr "estudiante", pystr "trabajador", pystr "desempleado"] :=
  ⟨rfl, rfl, by decide, by decide⟩

/-- **C5**: an empty department selection (`None` or the empty list)
makes the comparison callback return the textual prompt, never a
table. -/
theorem update_tabla_empty_selection (sel : Option (List PyStr)) (df : List Registro)
    (h : sel = none ∨ sel = some []) :
    update_tabla_comparativa sel df = SalidaTabla.mensaje promptMsg
  ∧ ∀ filas, update_tabla_comparativa sel df ≠ SalidaTabla.tabla filas := by
  have h1 : update_tabla_comparativa sel df = SalidaTabla.mensaje promptMsg := by
    rcases h with rfl | rfl <;> rfl
  refine ⟨h1, fun filas hc => ?_⟩
  rw [h1] at hc
  exact SalidaTabla.noConfusion hc

/-- Closed instance of `update_tabla_empty_selection` at a concrete
input. -/
theorem update_tabla_empty_selection_witness :
    update_tabla_comparativa none fallback_df = SalidaTabla.mensaje promptMsg
  ∧ ∀ filas, update_tabla_comparativa none fallback_df ≠ SalidaTabla.tabla filas :=
  update_tabla_empty_selection none fallback_df (Or.inl rfl)

/-- A record whose occupation is none of the three standard categories,
used as concrete input for witnesses. -/
def registroOtro : Registro :=
  ⟨1, pystr "X", 0, 0, 20, pystr "Otro", 100, pystr "x", pystr "otro"⟩

/-- **C6**: for a department whose filtered subset is non-empty, each
occupation that is absent from the subset yields a 0 percentage and a 0
mean income in the comparison row (no division-by-zero error possible in
the model: every field is total). -/
theorem mkFila_zero_when_absent (df : List Registro) (dep : PyStr)
    (hne : dep_data df dep ≠ []) :
    ((∀ r ∈ dep_data df dep, r.ocupacion ≠ pystr "desempleado") →
      (mkFila dep (dep_data df dep)).pctDesempleados = 0
    ∧ (mkFila dep (dep_data df dep)).IngresoDesempleados = 0)
  ∧ ((∀ r ∈ dep_data df dep, r.ocupacion ≠ pystr "estudiante") →
      (mkFila dep (dep_data df dep)).pctEstudiantes = 0
    ∧ (mkFila dep (dep_data df dep)).IngresoEstudiantes = 0)
  ∧ ((∀ r ∈ dep_data df dep, r.ocupacion ≠ pystr "trabajador") →
      (mkFila dep (dep_data df dep)).pctTrabajadores = 0
    ∧ (mkFila dep (dep_data df dep)).IngresoTrabajadores = 0) := by
  refine ⟨fun h => ?_, fun h => ?_, fun h => ?_⟩ <;>
  · have hfil : (dep_data df dep).filter
        (fun r => decide (r.ocupacion = _)) = [] :=
      List.filter_eq_nil_iff.mpr (fun r hr => by simpa using h r hr)
    constructor <;>
    · simp only [mkFila, hfil]
      split_ifs <;> simp [mean]

/-- Closed instance of `mkFila_zero_when_absent`: a department whose
only record has occupation "otro" gets zeros for all three standard
occupations. -/
theorem mkFila_zero_when_absent_witness :
    (mkFila (pystr "x") (dep_data [registroOtro] (pystr "x"))).pctDesempleados = 0
  ∧ (mkFila (pystr "x") (dep_data [registroOtro] (pystr "x"))).IngresoDesempleados = 0 :=
  (mkFila_zero_when_absent [registroOtro] (pystr "x") (by decide)).1 (by decide)

theorem resultados_sublist (df : List Registro) (deps : List PyStr) :
    List.Sublist ((resultados df deps).map FilaComparativa.Departamento)
      (deps.map pyCapitalize) := by
  induction deps with
  | nil => exact List.Sublist.refl _
  | cons d rest ih =>
    unfold resultados
    by_cases h : (dep_data df d).isEmpty
    · rw [if_neg (by simpa using h), List.map_cons]
      exact List.Sublist.cons _ ih
    · rw [if_pos (by simpa using h), List.map_cons, List.map_cons]
      exact List.Sublist.cons₂ _ ih

/-- **C7**: for every non-empty selection, the rows of the comparison
table keep the relative order of the selected departments: the sequence
of row labels is a subsequence of the capitalized selection list. -/
theorem resultados_preserve_order (df : List Registro) (deps : List PyStr)
    (hne : deps ≠ []) :
    List.Sublist ((resultados df deps).map FilaComparativa.Departamento)
      (deps.map pyCapitalize) :=
  resultados_sublist df deps

/-- Closed instance of `resultados_preserve_order` at a concrete
input. -/
theorem resultados_preserve_order_witness :
    List.Sublist
      ((resultados [registroOtro] [pystr "x", pystr "y"]).map FilaComparativa.Departamento)
      ([pystr "x", pystr "y"].map pyCapitalize) :=
  resultados_preserve_order [registroOtro] [pystr "x", pystr "y"] (by decide)

/-- **C10**: the callback loop silently omits every selected department
with no matching record: the output is exactly one row per selected
department whose subset is non-empty (in selection order), so it can be
shorter than the selection. -/
theorem resultados_omit_unmatched (df : List Registro) (deps : List PyStr) :
    resultados df deps
      = (deps.filter fun d => !(dep_data df d).isEmpty).map
          (fun d => mkFila d (dep_data df d))
  ∧ (resultados df deps).length
      = (deps.filter fun d => !(dep_data df d).isEmpty).length
  ∧ (resultados df deps).length ≤ deps.length := by
  have key : resultados df deps
      = (deps.filter fun d => !(dep_data df d).isEmpty).map
          (fun d => mkFila d (dep_data df d)) := by
    induction deps with
    | nil => rfl
    | cons d rest ih =>
      by_cases h : (dep_data df d).isEmpty
      · simp [resultados, h, List.filter_cons, ih]
      · simp [resultados, h, List.filter_cons, ih]
  refine ⟨key, ?_, ?_⟩
  · rw [key, List.length_map]
  · rw [key, List.length_map]
    exact List.length_filter_le _ _

/-- One row of `ingreso_por_departamento` (app.py lines 100-101):
`df.groupby('departamento')['Ingreso'].mean()`. -/
structure IngresoDepartamento where
  departamento : PyStr
  ingreso_promedio : ℚ
deriving DecidableEq

/-- One polygon row of the boundary table `gdf`; `DPTO_CNMBR` was
uppercased and stripped at load (app.py line 41).  The geometry plays no
role in the claims and is omitted; rows are identified by position. -/
structure BoundaryRow where
  DPTO_CNMBR : PyStr
deriving DecidableEq

/-- The join key `DPTO_CNMBR_NORM` (app.py line 117): NFKD-decompose,
drop non-ASCII, uppercase. -/
def dpto_cnmbr_norm (b : BoundaryRow) : PyStr :=
  pyUpper ((b.DPTO_CNMBR.flatMap nfkd).filter (fun c => decide (c < 128)))

/-- One row of the joined table `gdf_merged`. -/
structure MergedRow where
  DPTO_CNMBR : PyStr
  ingreso_promedio : ℚ
deriving DecidableEq

/-- The loop body of the left merge for one boundary row: all aggregate
rows whose `departamento_upper` equals the boundary key, or — when there
is none — a single row whose missing `ingreso_promedio` (NaN) the
`fillna(0)` turns into `0`. -/
def merge_row (agg : List IngresoDepartamento) (b : BoundaryRow) : List MergedRow :=
  let coincidencias := agg.filter fun a =>
    decide (pyUpper a.departamento = dpto_cnmbr_norm b)
  if coincidencias.isEmpty then [⟨b.DPTO_CNMBR, 0⟩]
  else coincidencias.map fun a => ⟨b.DPTO_CNMBR, a.ingreso_promedio⟩

/-- The geo join (app.py lines 120-125): `gdf.merge(...)` with
`how='left'` on `DPTO_CNMBR_NORM = departamento_upper`, then
`.fillna(0)`.  A left merge emits one row per matching right row and
keeps unmatched left rows. -/
def gdf_merged (gdf : List BoundaryRow) (agg : List IngresoDepartamento) :
    List MergedRow :=
  gdf.flatMap (merge_row agg)

theorem filter_find_of_nodup {α β : Type} [DecidableEq β] (f : α → β) (k : β) :
    ∀ l : List α, (l.map f).Nodup →
      (l.filter (fun a => decide (f a = k)) = []
        ∧ l.find? (fun a => decide (f a = k)) = none)
    ∨ ∃ a, l.filter (fun a => decide (f a = k)) = [a]
        ∧ l.find? (fun a => decide (f a = k)) = some a ∧ f a = k
  | [], _ => Or.inl ⟨rfl, rfl⟩
  | a :: t, h => by
    rw [List.map_cons, List.nodup_cons] at h
    by_cases hak : f a = k
    · right
      refine ⟨a, ?_, ?_, hak⟩
      · rw [List.filter_cons_of_pos (by simpa using hak)]
        have ht : t.filter (fun x => decide (f x = k)) = [] :=
          List.filter_eq_nil_iff.mpr fun x hx => by
            simp only [decide_eq_true_eq]
            intro hxk
            exact h.1 (by rw [hak, ← hxk]; exact List.mem_map_of_mem f hx)
        rw [ht]
      · exact List.find?_cons_of_pos t (by simpa using hak)
    · rcases filter_find_of_nodup f k t h.2 with ⟨h1, h2⟩ | ⟨x, h1, h2, h3⟩
      · left
        rw [List.filter_cons_of_neg (by simpa using hak),
            List.find?_cons_of_neg t (by simpa using hak)]
        exact ⟨h1, h2⟩
      · right
        refine ⟨x, ?_, ?_, h3⟩
        · rw [List.filter_cons_of_neg (by simpa using hak)]; exact h1
        · rw [List.find?_cons_of_neg t (by simpa using hak)]; exact h2

theorem merge_row_eq (agg : List IngresoDepartamento) (b : BoundaryRow)
    (hkeys : (agg.map fun a => pyUpper a.departamento).Nodup) :
    merge_row agg b
      = [match agg.find? (fun a => decide (pyUpper a.departamento = dpto_cnmbr_norm b)) with
         | some a => MergedRow.mk b.DPTO_CNMBR a.ingreso_promedio
         | none => MergedRow.mk b.DPTO_CNMBR 0] := by
  rcases filter_find_of_nodup (fun a => pyUpper a.departamento)
      (dpto_cnmbr_norm b) agg hkeys with ⟨h1, h2⟩ | ⟨a, h1, h2, _⟩ <;>
    · simp only [merge_row, h1, h2]
      rfl

/-- Core property of the left merge: when the uppercased keys of the
aggregate table are pairwise distinct, the merge yields exactly one
output row per boundary row — in order, nothing dropped or duplicated —
and every boundary whose key matches no aggregate row comes out with
`ingreso_promedio = 0`. -/
theorem gdf_merged_of_nodup_keys (gdf : List BoundaryRow) (agg : List IngresoDepartamento)
    (hkeys : (agg.map fun a => pyUpper a.departamento).Nodup) :
    (gdf_merged gdf agg).length = gdf.length
  ∧ gdf_merged gdf agg = gdf.map (fun b =>
      match agg.find? (fun a => decide (pyUpper a.departamento = dpto_cnmbr_norm b)) with
      | some a => ⟨b.DPTO_CNMBR, a.ingreso_promedio⟩
      | none => ⟨b.DPTO_CNMBR, 0⟩)
  ∧ ∀ b ∈ gdf, (∀ a ∈ agg, pyUpper a.departamento ≠ dpto_cnmbr_norm b) →
      MergedRow.mk b.DPTO_CNMBR 0 ∈ gdf_merged gdf agg := by
  have key : gdf_merged gdf agg = gdf.map (fun b =>
      match agg.find? (fun a => decide (pyUpper a.departamento = dpto_cnmbr_norm b)) with
      | some a => MergedRow.mk b.DPTO_CNMBR a.ingreso_promedio
      | none => MergedRow.mk b.DPTO_CNMBR 0) := by
    induction gdf with
    | nil => rfl
    | cons b rest ih =>
      have step : gdf_merged (b :: rest) agg = merge_row agg b ++ gdf_merged rest agg := rfl
      rw [step, ih, merge_row_eq agg b hkeys, List.singleton_append, List.map_cons]
  refine ⟨by rw [key, List.length_map], key, fun b hb hnomatch => ?_⟩
  have hfind : agg.find? (fun a => decide (pyUpper a.departamento = dpto_cnmbr_norm b))
      = none :=
    List.find?_eq_none.mpr fun a ha => by simpa using hnomatch a ha
  have hmem := List.mem_map_of_mem (fun b =>
      match agg.find? (fun a => decide (pyUpper a.departamento = dpto_cnmbr_norm b)) with
      | some a => MergedRow.mk b.DPTO_CNMBR a.ingreso_promedio
      | none => MergedRow.mk b.DPTO_CNMBR 0) hb
  simp only at hmem
  rw [hfind] at hmem
  rw [key]
  exact hmem

/-- `ingreso_por_departamento = df.groupby('departamento')['Ingreso']
.mean()` (app.py lines 100-101): one row per distinct normalized
department key, carrying the mean income of its records. -/
def ingreso_por_departamento (df : List Registro) : List IngresoDepartamento :=
  (df.map Registro.departamento).dedup.map fun d =>
    ⟨d, mean ((df.filter fun r => decide (r.departamento = d)).map Registro.Ingreso)⟩

theorem pyUpperChar_inj_on (c1 c2 : Nat)
    (h1 : ¬(65 ≤ c1 ∧ c1 ≤ 90)) (h2 : ¬(65 ≤ c2 ∧ c2 ≤ 90))
    (h : pyUpperChar c1 = pyUpperChar c2) : c1 = c2 := by
  unfold pyUpperChar at h
  split_ifs at h <;> omega

theorem pyUpper_inj_on : ∀ s t : PyStr,
    (∀ c ∈ s, ¬(65 ≤ c ∧ c ≤ 90)) → (∀ c ∈ t, ¬(65 ≤ c ∧ c ≤ 90)) →
    pyUpper s = pyUpper t → s = t
  | [], [], _, _, _ => rfl
  | [], c :: t, _, _, h => by simp [pyUpper] at h
  | c :: s, [], _, _, h => by simp [pyUpper] at h
  | c1 :: s, c2 :: t, hs, ht, h => by
    simp only [pyUpper, List.map_cons, List.cons.injEq] at h
    have hc := pyUpperChar_inj_on c1 c2 (hs c1 (List.mem_cons_self c1 s))
      (ht c2 (List.mem_cons_self c2 t)) h.1
    have hrest := pyUpper_inj_on s t (fun c hc => hs c (List.mem_cons_of_mem _ hc))
      (fun c hc => ht c (List.mem_cons_of_mem _ hc)) h.2
    rw [hc, hrest]

/-- Every code point produced by the normalization pipeline is outside
the ASCII uppercase range, so the program's `departamento` keys contain
no uppercase letters. -/
theorem normalizeKey_no_upper (s : PyStr) :
    ∀ c ∈ normalizeKey s, ¬(65 ≤ c ∧ c ≤ 90) := by
  intro c hc
  unfold normalizeKey correcciones at hc
  split_ifs at hc
  · exact (by decide : ∀ c ∈ pystr "bogota, d.c.", ¬(65 ≤ c ∧ c ≤ 90)) c hc
  · exact (by decide : ∀ c ∈ pystr "valle", ¬(65 ≤ c ∧ c ≤ 90)) c hc
  · exact (by decide : ∀ c ∈ pystr "cordoba", ¬(65 ≤ c ∧ c ≤ 90)) c hc
  · exact (normBase_mem s c hc).2

/-- The uppercased keys of the groupby aggregate are automatically
pairwise distinct when the underlying department keys contain no
uppercase code points (which the load pipeline guarantees). -/
theorem ingreso_por_departamento_keys_nodup (df : List Registro)
    (h : ∀ r ∈ df, ∀ c ∈ r.departamento, ¬(65 ≤ c ∧ c ≤ 90)) :
    ((ingreso_por_departamento df).map fun a => pyUpper a.departamento).Nodup := by
  unfold ingreso_por_departamento
  rw [List.map_map]
  have hcomp : ((fun a => pyUpper a.departamento) ∘
      (fun d => (⟨d, mean ((df.filter fun r =>
        decide (r.departamento = d)).map Registro.Ingreso)⟩ : IngresoDepartamento)))
      = fun d => pyUpper d := rfl
  rw [hcomp]
  refine List.Nodup.map_on ?_ (List.nodup_dedup _)
  intro x hx y hy hxy
  obtain ⟨rx, hrx, hrx2⟩ := List.mem_map.mp (List.mem_dedup.mp hx)
  obtain ⟨ry, hry, hry2⟩ := List.mem_map.mp (List.mem_dedup.mp hy)
  exact pyUpper_inj_on x y (hrx2 ▸ h rx hrx) (hry2 ▸ h ry hry) hxy

/-- **C1**: for every boundary table and every record table whose
normalized department keys are free of uppercase letters (as the load
pipeline guarantees for the table feeding the groupby), the left merge
of the boundaries with the per-department mean-income table returns
exactly one output row per boundary row, and every unmatched boundary
row gets `ingreso_promedio = 0`. -/
theorem gdf_merged_left_join (gdf : List BoundaryRow) (df : List Registro)
    (hdf : ∀ r ∈ df, ∀ c ∈ r.departamento, ¬(65 ≤ c ∧ c ≤ 90)) :
    (gdf_merged gdf (ingreso_por_departamento df)).length = gdf.length
  ∧ ∀ b ∈ gdf, (∀ a ∈ ingreso_por_departamento df,
        pyUpper a.departamento ≠ dpto_cnmbr_norm b) →
      MergedRow.mk b.DPTO_CNMBR 0 ∈ gdf_merged gdf (ingreso_por_departamento df) := by
  have h := gdf_merged_of_nodup_keys gdf (ingreso_por_departamento df)
    (ingreso_por_departamento_keys_nodup df hdf)
  exact ⟨h.1, h.2.2⟩

/-- Closed instance of `gdf_merged_left_join`: two boundary polygons and
the fallback table; the unmatched polygon (Vichada) survives with income
0 and no polygon is dropped. -/
theorem gdf_merged_left_join_witness :
    (gdf_merged [⟨pystr "SANTANDER"⟩, ⟨pystr "VICHADA"⟩]
        (ingreso_por_departamento fallback_df)).length = 2
  ∧ MergedRow.mk (pystr "VICHADA") 0
      ∈ gdf_merged [⟨pystr "SANTANDER"⟩, ⟨pystr "VICHADA"⟩]
        (ingreso_por_departamento fallback_df) := by
  have h := gdf_merged_left_join [⟨pystr "SANTANDER"⟩, ⟨pystr "VICHADA"⟩]
    fallback_df (by decide)
  exact ⟨h.1, h.2 ⟨pystr "VICHADA"⟩ (by decide) (by decide)⟩

/-- `ingreso_por_departamento.sort_values('ingreso_promedio',
ascending=False).head(5)` (app.py line 467). -/
def top5_ingresos (tbl : List IngresoDepartamento) : List IngresoDepartamento :=
  (tbl.mergeSort fun a b => decide (b.ingreso_promedio ≤ a.ingreso_promedio)).take 5

/-- `ingreso_por_departamento.sort_values('ingreso_promedio').head(5)`
(app.py line 485). -/
def bottom5_ingresos (tbl : List IngresoDepartamento) : List IngresoDepartamento :=
  (tbl.mergeSort fun a b => decide (a.ingreso_promedio ≤ b.ingreso_promedio)).take 5

theorem take5_sorted (tbl : List IngresoDepartamento)
    (le : IngresoDepartamento → IngresoDepartamento → Bool)
    (trans : ∀ a b c, le a b → le b c → le a c)
    (total : ∀ a b, le a b || le b a) :
    ∃ resto, ((tbl.mergeSort le).take 5 ++ resto).Perm tbl
      ∧ ∀ x ∈ (tbl.mergeSort le).take 5, ∀ y ∈ resto, le x y := by
  refine ⟨(tbl.mergeSort le).drop 5, ?_, ?_⟩
  · rw [List.take_append_drop]
    exact List.mergeSort_perm tbl le
  · have hp : (tbl.mergeSort le).Pairwise (fun a b => le a b) :=
      List.sorted_mergeSort trans total tbl
    rw [← List.take_append_drop 5 (tbl.mergeSort le)] at hp
    exact (List.pairwise_append.mp hp).2.2

/-- **C8**: the top-5 chart's table consists of (at most) 5 rows that
are a sub-multiset of the department mean-income table and dominate all
remaining rows in mean income; dually, the bottom-5 rows are dominated
by all remaining rows. -/
theorem top_bottom_5_extremes (tbl : List IngresoDepartamento) :
    (top5_ingresos tbl).length = min 5 tbl.length
  ∧ (∃ resto, (top5_ingresos tbl ++ resto).Perm tbl
      ∧ ∀ x ∈ top5_ingresos tbl, ∀ y ∈ resto,
          y.ingreso_promedio ≤ x.ingreso_promedio)
  ∧ (bottom5_ingresos tbl).length = min 5 tbl.length
  ∧ (∃ resto, (bottom5_ingresos tbl ++ resto).Perm tbl
      ∧ ∀ x ∈ bottom5_ingresos tbl, ∀ y ∈ resto,
          x.ingreso_promedio ≤ y.ingreso_promedio) := by
  refine ⟨?_, ?_, ?_, ?_⟩
  · rw [top5_ingresos, List.length_take, List.length_mergeSort]
  · obtain ⟨resto, hperm, hle⟩ := take5_sorted tbl
      (fun a b => decide (b.ingreso_promedio ≤ a.ingreso_promedio))
      (fun a b c h1 h2 => by
        simp only [decide_eq_true_eq] at *
        exact le_trans h2 h1)
      (fun a b => by simpa using le_total b.ingreso_promedio a.ingreso_promedio)
    exact ⟨resto, hperm, fun x hx y hy => by simpa using hle x hx y hy⟩
  · rw [bottom5_ingresos, List.length_take, List.length_mergeSort]
  · obtain ⟨resto, hperm, hle⟩ := take5_sorted tbl
      (fun a b => decide (a.ingreso_promedio ≤ b.ingreso_promedio))
      (fun a b c h1 h2 => by
        simp only [decide_eq_true_eq] at *
        exact le_trans h1 h2)
      (fun a b => by simpa using le_total a.ingreso_promedio b.ingreso_promedio)
    exact ⟨resto, hperm, fun x hx y hy => by simpa using hle x hx y hy⟩

/-- pandas `Series.min` over a rational column (0 for the empty column,
which does not occur in the dashboard). -/
def seriesMin : List ℚ → ℚ
  | [] => 0
  | x :: xs => xs.foldl min x

/-- pandas `Series.max` over a rational column. -/
def seriesMax : List ℚ → ℚ
  | [] => 0
  | x :: xs => xs.foldl max x

theorem foldl_min_spec (xs : List ℚ) : ∀ x : ℚ,
    xs.foldl min x ∈ x :: xs ∧ ∀ v ∈ x :: xs, xs.foldl min x ≤ v := by
  induction xs with
  | nil =>
    intro x
    refine ⟨List.mem_cons_self x [], fun v hv => ?_⟩
    rw [List.mem_singleton] at hv
    rw [hv]
    exact le_refl _
  | cons y ys ih =>
    intro x
    obtain ⟨hmem, hle⟩ := ih (min x y)
    rw [List.foldl_cons]
    have hstep : ys.foldl min (min x y) ≤ min x y := hle _ (List.mem_cons_self _ ys)
    constructor
    · rcases List.mem_cons.mp hmem with h | h
      · rw [h]
        rcases min_choice x y with hxy | hxy
        · rw [hxy]; exact List.mem_cons_self x (y :: ys)
        · rw [hxy]; exact List.mem_cons_of_mem x (List.mem_cons_self y ys)
      · exact List.mem_cons_of_mem x (List.mem_cons_of_mem y h)
    · intro v hv
      rcases List.mem_cons.mp hv with rfl | hv'
      · exact le_trans hstep (min_le_left _ _)
      · rcases List.mem_cons.mp hv' with rfl | hv''
        · exact le_trans hstep (min_le_right _ _)
        · exact hle v (List.mem_cons_of_mem _ hv'')

theorem foldl_max_spec (xs : List ℚ) : ∀ x : ℚ,
    xs.foldl max x ∈ x :: xs ∧ ∀ v ∈ x :: xs, v ≤ xs.foldl max x := by
  induction xs with
  | nil =>
    intro x
    refine ⟨List.mem_cons_self x [], fun v hv => ?_⟩
    rw [List.mem_singleton] at hv
    rw [hv]
    exact le_refl _
  | cons y ys ih =>
    intro x
    obtain ⟨hmem, hle⟩ := ih (max x y)
    rw [List.foldl_cons]
    have hstep : max x y ≤ ys.foldl max (max x y) := hle _ (List.mem_cons_self _ ys)
    constructor
    · rcases List.mem_cons.mp hmem with h | h
      · rw [h]
        rcases max_choice x y with hxy | hxy
        · rw [hxy]; exact List.mem_cons_self x (y :: ys)
        · rw [hxy]; exact List.mem_cons_of_mem x (List.mem_cons_self y ys)
      · exact List.mem_cons_of_mem x (List.mem_cons_of_mem y h)
    · intro v hv
      rcases List.mem_cons.mp hv with rfl | hv'
      · exact le_trans (le_max_left _ _) hstep
      · rcases List.mem_cons.mp hv' with rfl | hv''
        · exact le_trans (le_max_right _ _) hstep
        · exact hle v (List.mem_cons_of_mem _ hv'')

theorem seriesMin_spec (l : List ℚ) (h : l ≠ []) :
    seriesMin l ∈ l ∧ ∀ v ∈ l, seriesMin l ≤ v := by
  cases l with
  | nil => exact absurd rfl h
  | cons x xs => exact foldl_min_spec xs x

theorem seriesMax_spec (l : List ℚ) (h : l ≠ []) :
    seriesMax l ∈ l ∧ ∀ v ∈ l, v ≤ seriesMax l := by
  cases l with
  | nil => exact absurd rfl h
  | cons x xs => exact foldl_max_spec xs x

/-- The choropleth figure of `create_mapa_figure` (app.py lines
214-236), reduced to the data the claims are about: the per-polygon fill
values taken from `gdf_merged` and the fixed `range_color` computed from
`ingreso_por_departamento` (lines 222-223). -/
structure Choropleth where
  colorValues : List ℚ
  rangeColor : ℚ × ℚ
deriving DecidableEq

/-- The `px.choropleth(gdf_merged, ..., color='ingreso_promedio',
range_color=(ingreso_por_departamento['ingreso_promedio'].min(),
ingreso_por_departamento['ingreso_promedio'].max()))` call. -/
def px_choropleth (merged : List MergedRow) (agg : List IngresoDepartamento) :
    Choropleth :=
  ⟨merged.map MergedRow.ingreso_promedio,
   (seriesMin (agg.map IngresoDepartamento.ingreso_promedio),
    seriesMax (agg.map IngresoDepartamento.ingreso_promedio))⟩

/-- **C9**: the choropleth color range is exactly `[min, max]` of the
per-department mean incomes of the aggregate table: it does not depend
on the joined boundary values at all, both endpoints are attained by
aggregate rows, and every aggregate mean lies inside the range. -/
theorem choropleth_range_from_aggregate (merged otherMerged : List MergedRow)
    (agg : List IngresoDepartamento) (hne : agg ≠ []) :
    (px_choropleth merged agg).rangeColor = (px_choropleth otherMerged agg).rangeColor
  ∧ (px_choropleth merged agg).rangeColor
      = (seriesMin (agg.map IngresoDepartamento.ingreso_promedio),
         seriesMax (agg.map IngresoDepartamento.ingreso_promedio))
  ∧ (px_choropleth merged agg).rangeColor.1
      ∈ agg.map IngresoDepartamento.ingreso_promedio
  ∧ (px_choropleth merged agg).rangeColor.2
      ∈ agg.map IngresoDepartamento.ingreso_promedio
  ∧ ∀ v ∈ agg.map IngresoDepartamento.ingreso_promedio,
      (px_choropleth merged agg).rangeColor.1 ≤ v
    ∧ v ≤ (px_choropleth merged agg).rangeColor.2 := by
  have hmap : agg.map IngresoDepartamento.ingreso_promedio ≠ [] := by
    intro hc
    exact hne (List.map_eq_nil_iff.mp hc)
  obtain ⟨hminMem, hminLe⟩ := seriesMin_spec _ hmap
  obtain ⟨hmaxMem, hmaxLe⟩ := seriesMax_spec _ hmap
  exact ⟨rfl, rfl, hminMem, hmaxMem, fun v hv => ⟨hminLe v hv, hmaxLe v hv⟩⟩

/-- Closed instance of `choropleth_range_from_aggregate`: the range is
(1, 3) from the aggregate even though the joined table contributes a
zero-filled value. -/
theorem choropleth_range_from_aggregate_witness :
    (px_choropleth [⟨pystr "VICHADA", 0⟩] [⟨pystr "a", 1⟩, ⟨pystr "b", 3⟩]).rangeColor
      = (px_choropleth [] [⟨pystr "a", 1⟩, ⟨pystr "b", 3⟩]).rangeColor
  ∧ (px_choropleth [⟨pystr "VICHADA", 0⟩] [⟨pystr "a", 1⟩, ⟨pystr "b", 3⟩]).rangeColor
      = (seriesMin ([⟨pystr "a", 1⟩, ⟨pystr "b", 3⟩].map IngresoDepartamento.ingreso_promedio),
         seriesMax ([⟨pystr "a", 1⟩, ⟨pystr "b", 3⟩].map IngresoDepartamento.ingreso_promedio)) :=
  ⟨(choropleth_range_from_aggregate [⟨pystr "VICHADA", 0⟩] []
      [⟨pystr "a", 1⟩, ⟨pystr "b", 3⟩] (by decide)).1,
   (choropleth_range_from_aggregate [⟨pystr "VICHADA", 0⟩] []
      [⟨pystr "a", 1⟩, ⟨pystr "b", 3⟩] (by decide)).2.1⟩

/-- A chart specification as a figure builder returns it: either a
successfully constructed plotly figure (identified abstractly) or the
placeholder figure `px.scatter().update_layout(title=...)` that carries
only an explanatory message. -/
inductive Chart where
  | figura (id : Nat)
  | placeholder (titulo : PyStr)
deriving DecidableEq

/-- Placeholder message of `create_alternative_map` (app.py line 282). -/
def geoPlaceholderMsg : PyStr :=
  pystr "Datos geoespaciales no disponibles para mostrar el mapa."

/-- Placeholder message of `create_mapa_puntos` (app.py line 316). -/
def puntosPlaceholderMsg : PyStr := pystr "Error al crear el mapa de puntos."

/-- `create_alternative_map` (app.py lines 244-283): `intento` is the
outcome of the `px.scatter_mapbox(...)` construction inside its `try`;
the `except` branch returns the titled placeholder chart. -/
def create_alternative_map (intento : Except PyStr Chart) : Chart :=
  match intento with
  | Except.ok fig => fig
  | Except.error _ => Chart.placeholder geoPlaceholderMsg

/-- `create_mapa_figure` (app.py lines 211-242): when `gdf_merged` and
`geojson` are available it tries the `px.choropleth(...)` construction
(`intento`), falling back to `create_alternative_map` on exception or on
missing geodata. -/
def create_mapa_figure (geoDisponible : Bool)
    (intento intentoAlt : Except PyStr Chart) : Chart :=
  if geoDisponible then
    match intento with
    | Except.ok fig => fig
    | Except.error _ => create_alternative_map intentoAlt
  else create_alternative_map intentoAlt

/-- `create_mapa_puntos` (app.py lines 286-317): `try`/`except` around
the `px.scatter_mapbox(df, ...)` construction. -/
def create_mapa_puntos (intento : Except PyStr Chart) : Chart :=
  match intento with
  | Except.ok fig => fig
  | Except.error _ => Chart.placeholder puntosPlaceholderMsg

/-- The four figures of the occupation-analysis tab (app.py lines
349-452): the donut, the income bar chart, the age box plot and the
age-income scatter are built inline in the layout with no `try`/`except`
around them, so the first construction failure propagates to the
caller. -/
def analisis_ocupacion_figures (donut barra caja dispersion : Except PyStr Chart) :
    Except PyStr (List Chart) := do
  let f1 ← donut
  let f2 ← barra
  let f3 ← caja
  let f4 ← dispersion
  pure [f1, f2, f3, f4]

/-- Counterexample to **C4** as stated: the donut figure of the
occupation tab is built with no exception handler, so a construction
failure propagates to the caller instead of yielding a placeholder
chart. -/
theorem analisis_ocupacion_propagates :
    analisis_ocupacion_figures (Except.error (pystr "construction failed"))
      (Except.ok (Chart.figura 1)) (Except.ok (Chart.figura 2))
      (Except.ok (Chart.figura 3))
      = Except.error (pystr "construction failed") := rfl

/-- **C4 (amended)**: the three map builders never propagate a
construction failure — they catch it and return a fallback or
placeholder chart — while the occupation-tab figures (donut, bar, box,
scatter) are built without any handler and propagate the first
failure. -/
theorem map_builders_catch_failures (geoDisponible : Bool) (e1 e2 e3 : PyStr)
    (caja dispersion : Except PyStr Chart) :
    create_mapa_figure geoDisponible (Except.error e1) (Except.error e2)
      = Chart.placeholder geoPlaceholderMsg
  ∧ create_alternative_map (Except.error e2) = Chart.placeholder geoPlaceholderMsg
  ∧ create_mapa_puntos (Except.error e3) = Chart.placeholder puntosPlaceholderMsg
  ∧ analisis_ocupacion_figures (Except.error e1) (Except.ok (Chart.figura 0))
      caja dispersion = Except.error e1 := by
  refine ⟨?_, rfl, rfl, rfl⟩
  cases geoDisponible <;> rfl
